import Mathlib

/-!
# Verification of the DiscoSnp bubble finder (`tools/kissnp2/src/Bubble.cpp`)

Shallow embedding of the `BubbleFinder` class.  The de Bruijn graph is an
external collaborator of that file (the GATB `Graph` object): it is embedded
as a record of oracle functions matching exactly the capability surface the
source consumes (`getKmerSize`, `reverse`, `mutate`, joint `successors`,
`indegree`/`outdegree`, `toString`, `getNT`, unary `successors`/
`predecessors`).  The `Kissnp2` tool object is embedded as a record holding
the configuration switches plus the two injected external primitives
(the low-complexity filter from `Filter.hpp` and the traversal object).

The bubble search `expand` is a void recursion in the source whose only
observable effect is the sequence of `finish` calls; it is embedded as a
function returning the list of finished bubbles, together with (ghost) copies
of the two node paths walked, and `Option` marks executions that run into the
out-of-bounds accesses of `extend` (undefined behaviour in the C++).
-/

namespace Kissnp2

/-- A graph node as used by `Bubble.cpp`: a k-mer value (an integer encoding;
all node comparisons in the source are `kmer` comparisons) plus the strand
orientation bit.  `Node(~0)`, the sentinel previous node, has `kmer = -1`. -/
structure Node where
  kmer : Int
  strand : Bool
deriving DecidableEq, Repr

/-- The sentinel previous node `Node(~0)` used in `BubbleFinder::start`. -/
def nodeSentinel : Node := { kmer := -1, strand := false }

/-- The GATB graph capability surface consumed by `Bubble.cpp`, as oracle
functions (graph construction is outside the verified file). -/
structure Graph where
  /-- `graph.getKmerSize()`, cached as `sizeKmer` in the source. -/
  sizeKmer : Nat
  /-- `graph.reverse(n)`: the reverse-complement node. -/
  reverse : Node → Node
  /-- `graph.mutate(n, pos, mode)`: variants of `n` at `pos`; `mode = 1`
  keeps only nucleotides strictly greater than the current one. -/
  mutate : Node → Nat → Nat → List Node
  /-- `graph.successors<Node>(a, b)`: joint successor pairs of `a` and `b`
  (same extending nucleotide on both edges). -/
  successors2 : Node → Node → List (Node × Node)
  /-- `graph.successors<Edge>(a, b).size()`: the source only reads the size
  of this container, so the oracle returns the count directly. -/
  jointEdgeSuccCount : Node → Node → Nat
  /-- `graph.indegree(n)`. -/
  indegree : Node → Nat
  /-- `graph.outdegree(n)`. -/
  outdegree : Node → Nat
  /-- `graph.successors<Node>(n)`. -/
  successors1 : Node → List Node
  /-- `graph.predecessors<Node>(n)`. -/
  predecessors1 : Node → List Node
  /-- `graph.toString(n)`: length-`sizeKmer` ACGT rendering. -/
  toString : Node → String
  /-- `graph.getNT(n, i)`: the 0..3 nucleotide code at position `i`. -/
  getNT : Node → Nat → Nat

/-- `Traversal::NONE / UNITIG / CONTIG` (the `traversalKind` switch). -/
inductive TraversalKind where
  | NONE : TraversalKind
  | UNITIG : TraversalKind
  | CONTIG : TraversalKind
deriving DecidableEq, Repr

/-- The injected traversal primitive (`_traversal`, external to the verified
file).  `traverse n` is the nucleotide-code sequence the primitive writes
into the output path when launched from `n` (after the terminator reset the
source performs), and `bubblesFirst n` is `getBubbles()[0].first` after that
walk, or `none` when `getBubbles()` is empty. -/
structure TraversalOracle where
  traverse : Node → List Nat
  bubblesFirst : Node → Option Nat

/-- The `Kissnp2` tool configuration read by `Bubble.cpp`, plus the two
injected external primitives. -/
structure Tool where
  /-- `tool.authorised_branching` (0, 1 or 2). -/
  authorised_branching : Nat
  /-- `tool.traversalKind`. -/
  traversalKind : TraversalKind
  /-- `tool.threshold` for the low-complexity score. -/
  threshold : Int
  /-- `tool.low`: also keep bubbles whose score reaches the threshold. -/
  low : Bool
  /-- Modelled from the spec: `filterLowComplexity2Paths` lives in
  `Filter.hpp`, which is not part of the verified source; the spec only
  requires a deterministic integer score of the two paths, so it is kept
  as an oracle parameter of the tool. -/
  filterLowComplexity2Paths : String → String → Int
  /-- The traversal primitive used by `BubbleFinder::extend`. -/
  trav : TraversalOracle

/-- The `Bubble` work record of `Bubble.hpp` (the `seq1`/`seq2` rendering
targets are produced separately by `buildSequence`).  The closures keep the
source's `int` encoding with `-1` (`BAD`) for "absent". -/
structure Bubble where
  begin0 : Node
  begin1 : Node
  end0 : Node
  end1 : Node
  extensionLeft : List Nat := []
  extensionRight : List Nat := []
  closureLeft : Int := -1
  closureRight : Int := -1
  divergenceLeft : Nat := 0
  divergenceRight : Nat := 0
  where_to_extend : Nat := 0
  score : Int := 0
deriving DecidableEq, Repr

/-- A `finish` event of the search, together with ghost copies of the two
node paths (position 0 = the `begin` nodes) that the recursion walked. -/
structure EmittedBubble where
  bubble : Bubble
  path0 : List Node
  path1 : List Node
deriving DecidableEq, Repr

/-- `BubbleFinder::two_possible_extensions_on_one_path` (Bubble.cpp:286). -/
def two_possible_extensions_on_one_path (g : Graph) (node : Node) : Bool :=
  decide (2 ≤ g.indegree node) || decide (2 ≤ g.outdegree node)

/-- `BubbleFinder::two_possible_extensions` (Bubble.cpp:299): joint edge
successors of the pair, in the forward OR the reverse direction, number at
least two. -/
def two_possible_extensions (g : Graph) (node1 node2 : Node) : Bool :=
  decide (2 ≤ g.jointEdgeSuccCount node1 node2) ||
  decide (2 ≤ g.jointEdgeSuccCount (g.reverse node1) (g.reverse node2))

/-- `BubbleFinder::checkBranching` (Bubble.cpp:416). -/
def checkBranching (g : Graph) (t : Tool) (node1 node2 : Node) : Bool :=
  if t.authorised_branching == 0 &&
      (two_possible_extensions_on_one_path g node1 ||
       two_possible_extensions_on_one_path g node2) then
    false
  else if t.authorised_branching == 1 && two_possible_extensions g node1 node2 then
    false
  else
    true

/-- `BubbleFinder::checkNodesDiff` (Bubble.cpp:388). -/
def checkNodesDiff (previous current next : Node) : Bool :=
  (next.kmer != current.kmer) && (next.kmer != previous.kmer)

/-- Character comparison by code point, as C++ compares `char`s. -/
def charLt (a b : Char) : Bool :=
  decide (a < b)

/-- Lexicographic strict order on character lists: the comparison performed
by `std::string::operator<` in the source. -/
def lexLt : List Char → List Char → Bool
  | [], [] => false
  | [], _ :: _ => true
  | _ :: _, [] => false
  | a :: as, b :: bs =>
    if charLt a b then true else if charLt b a then false else lexLt as bs

/-- `BubbleFinder::checkPath` (Bubble.cpp:401): the rendering of `begin[0]`
is lexicographically smaller than the rendering of `reverse(end[0])`. -/
def checkPath (g : Graph) (b : Bubble) : Bool :=
  lexLt (g.toString b.begin0).toList (g.toString (g.reverse b.end0)).toList

/-- `BubbleFinder::checkLowComplexity` (Bubble.cpp:441).  Returns the bubble
with its `score` field set (the source writes `bubble.score`) and the
accept/reject boolean. -/
def checkLowComplexity (g : Graph) (t : Tool) (b : Bubble) : Bubble × Bool :=
  let path1 := (g.toString b.begin0).take (g.sizeKmer - 1) ++ g.toString b.end0
  let path2 := (g.toString b.begin1).take (g.sizeKmer - 1) ++ g.toString b.end1
  let score := t.filterLowComplexity2Paths path1 path2
  ({ b with score := score },
   decide (score < t.threshold) || (decide (t.threshold ≤ score) && t.low))

/-- The closure nucleotide of the left side (Bubble.cpp:216): recorded only
when the predecessor set has size exactly one, `-1` (`BAD`) otherwise. -/
def extendClosureLeft (g : Graph) (preds : List Node) : Int :=
  match preds with
  | [p] => Int.ofNat (g.getNT p 0)
  | _ => -1

/-- The closure nucleotide of the right side (Bubble.cpp:217). -/
def extendClosureRight (g : Graph) (succs : List Node) : Int :=
  match succs with
  | [s] => Int.ofNat (g.getNT s (g.sizeKmer - 1))
  | _ => -1

/-- The `where_to_extend` if-chain of `BubbleFinder::extend`
(Bubble.cpp:232-235). -/
def whereToExtendCode (cl cr : Int) : Nat :=
  if cl == -1 && cr == -1 then 0
  else if cl != -1 && cr == -1 then 1
  else if cl == -1 && cr != -1 then 2
  else 3

/-- The traversal block of `BubbleFinder::extend` (Bubble.cpp:209-229).
The source indexes `successors[0]` and `predecessors[0]` without a bounds
check; `none` marks those out-of-bounds executions (C++ undefined
behaviour). -/
def extendTraverse (g : Graph) (t : Tool) (b : Bubble) :
    Option (Bubble × Int × Int) :=
  if t.traversalKind ≠ TraversalKind.NONE then
    match g.successors1 b.end0, g.predecessors1 b.begin0 with
    | s0 :: _, p0 :: _ =>
      some ({ b with
                extensionRight := t.trav.traverse s0,
                divergenceRight :=
                  (match t.trav.bubblesFirst s0 with
                   | none => (t.trav.traverse s0).length
                   | some d => d),
                extensionLeft := t.trav.traverse (g.reverse p0),
                divergenceLeft :=
                  (match t.trav.bubblesFirst (g.reverse p0) with
                   | none => (t.trav.traverse (g.reverse p0)).length
                   | some d => d) },
            extendClosureLeft g (g.predecessors1 b.begin0),
            extendClosureRight g (g.successors1 b.end0))
    | _, _ => none
  else
    some (b, -1, -1)

/-- `BubbleFinder::extend` (Bubble.cpp:201): traversal block, then the
closure/`where_to_extend` assignment, then `return true`. -/
def extend (g : Graph) (t : Tool) (b : Bubble) : Option (Bubble × Bool) :=
  match extendTraverse g t b with
  | none => none
  | some (b1, cl, cr) =>
    some ({ b1 with
              closureLeft := cl,
              closureRight := cr,
              where_to_extend := whereToExtendCode cl cr }, true)

/-- The continuation type used to tie the successor loop of `expand` to the
recursive call one position deeper: the deeper call receives the next node
pair and the extended ghost paths. -/
def Deeper : Type :=
  Node → Node → List Node → List Node → Option (List EmittedBubble)

/-- The `for` loop of `BubbleFinder::expand` over the joint successors
(Bubble.cpp:141-190).  `dk = some k` is the `pos < sizeKmer-1` regime
(recursion continues through `k`, then `break` when `authorised_branching`
is 0 or 1); `dk = none` is the terminal `pos == sizeKmer-1` regime (gate the
pair, set `end[0]/end[1]`, run `checkPath`/`checkLowComplexity`/`extend`,
and `finish` — here: emit).  A `return` in the source maps to producing no
further events for the remaining pairs. -/
def expandLoop (g : Graph) (t : Tool) (dk : Option Deeper) (b : Bubble)
    (node1 node2 prev1 prev2 : Node) (acc1 acc2 : List Node) :
    List (Node × Node) → Option (List EmittedBubble)
  | [] => some []
  | (next1, next2) :: rest =>
    if checkNodesDiff prev1 node1 next1 && checkNodesDiff prev2 node2 next2 then
      match dk with
      | some k =>
        match k next1 next2 (acc1 ++ [next1]) (acc2 ++ [next2]) with
        | none => none
        | some out =>
          if t.authorised_branching == 0 || t.authorised_branching == 1 then
            some out
          else
            match expandLoop g t dk b node1 node2 prev1 prev2 acc1 acc2 rest with
            | none => none
            | some out2 => some (out ++ out2)
      | none =>
        if checkBranching g t next1 next2 = false then some []
        else
          let b1 := { b with end0 := next1, end1 := next2 }
          if checkPath g b1 then
            if (checkLowComplexity g t b1).2 then
              match extend g t (checkLowComplexity g t b1).1 with
              | none => none
              | some (b3, okv) =>
                if okv then
                  match expandLoop g t dk b node1 node2 prev1 prev2 acc1 acc2 rest with
                  | none => none
                  | some out2 =>
                    some ({ bubble := b3,
                            path0 := acc1 ++ [next1],
                            path1 := acc2 ++ [next2] } :: out2)
                else expandLoop g t dk b node1 node2 prev1 prev2 acc1 acc2 rest
            else expandLoop g t dk b node1 node2 prev1 prev2 acc1 acc2 rest
          else expandLoop g t dk b node1 node2 prev1 prev2 acc1 acc2 rest
    else expandLoop g t dk b node1 node2 prev1 prev2 acc1 acc2 rest

/-- `BubbleFinder::expand` (Bubble.cpp:122).  `fuel = (sizeKmer-1) - pos`,
so `fuel = 0` is the terminal position and `fuel = f+1` recurses through the
continuation at fuel `f`.  The entry branching gate is Bubble.cpp:135. -/
def expand (g : Graph) (t : Tool) :
    Nat → Bubble → Node → Node → Node → Node → List Node → List Node →
    Option (List EmittedBubble)
  | 0, b, node1, node2, prev1, prev2, acc1, acc2 =>
    if checkBranching g t node1 node2 = false then some []
    else
      expandLoop g t none b node1 node2 prev1 prev2 acc1 acc2
        (g.successors2 node1 node2)
  | Nat.succ f, b, node1, node2, prev1, prev2, acc1, acc2 =>
    if checkBranching g t node1 node2 = false then some []
    else
      expandLoop g t
        (some (fun x1 x2 a1 a2 => expand g t f b x1 x2 node1 node2 a1 a2))
        b node1 node2 prev1 prev2 acc1 acc2 (g.successors2 node1 node2)

/-- The mutation loop of `BubbleFinder::start` (Bubble.cpp:104-111): one
`expand(1, ...)` attempt per mutated node, both previous nodes set to the
sentinel `Node(~0)`. -/
def startLoop (g : Graph) (t : Tool) (root : Node) :
    List Node → Option (List EmittedBubble)
  | [] => some []
  | m :: ms =>
    match expand g t (g.sizeKmer - 2)
        { begin0 := root, begin1 := m, end0 := nodeSentinel, end1 := nodeSentinel }
        root m nodeSentinel nodeSentinel [root] [m] with
    | none => none
    | some out =>
      match startLoop g t root ms with
      | none => none
      | some out2 => some (out ++ out2)

/-- `BubbleFinder::start` (Bubble.cpp:92): mutate the last position of the
root (keeping only strictly greater nucleotides) and try each mutation. -/
def start (g : Graph) (t : Tool) (root : Node) : Option (List EmittedBubble) :=
  startLoop g t root (g.mutate root (g.sizeKmer - 1) 1)

/-- `BubbleFinder::operator()` (Bubble.cpp:77): seed from the node and from
its reverse complement. -/
def processNode (g : Graph) (t : Tool) (node : Node) :
    Option (List EmittedBubble) :=
  match start g t node with
  | none => none
  | some out =>
    match start g t (g.reverse node) with
    | none => none
    | some out2 => some (out ++ out2)

/-- Modelled from the spec: GATB's `bin2NT` table (external to the verified
file) renders nucleotide codes as ACGT letters; the exact letter order is
irrelevant to the claims proved here. -/
def bin2NT (c : Nat) : Char :=
  if c = 0 then 'A' else if c = 1 then 'C' else if c = 2 then 'T' else 'G'

/-- `bin2NT` indexing by the source's `int` closure values. -/
def bin2NTi (c : Int) : Char :=
  if c = 0 then 'A' else if c = 1 then 'C' else if c = 2 then 'T' else 'G'

/-- Modelled from the spec: GATB's nucleotide `reverse` (external to the
verified file) is per-character complementation, `A↔T`, `C↔G`. -/
def compNT (c : Nat) : Nat := (c + 2) % 4

/-- The data layout written by `BubbleFinder::buildSequence`
(Bubble.cpp:345-377), excluding the final null terminator: reversed
complemented lowercase left extension, lowercase left closure when present,
the first `sizeKmer-1` characters of `begin[pathIdx]`, the `sizeKmer`
characters of `end[pathIdx]`, lowercase right closure when present, then the
lowercase right extension in natural order.  (The comment string built at
Bubble.cpp:316-343 goes to `setComment`, not into the sequence data, and is
not modelled.) -/
def buildSequence (g : Graph) (b : Bubble) (pathIdx : Nat) : List Char :=
  (List.reverse b.extensionLeft).map (fun c => Char.toLower (bin2NT (compNT c)))
  ++ (if b.closureLeft = -1 then [] else [Char.toLower (bin2NTi b.closureLeft)])
  ++ (g.toString (if pathIdx = 0 then b.begin0 else b.begin1)).toList.take (g.sizeKmer - 1)
  ++ (g.toString (if pathIdx = 0 then b.end0 else b.end1)).toList.take g.sizeKmer
  ++ (if b.closureRight = -1 then [] else [Char.toLower (bin2NTi b.closureRight)])
  ++ b.extensionRight.map (fun c => Char.toLower (bin2NT c))

/-- The shared counters updated by `BubbleFinder::finish`
(Bubble.cpp:255-274). -/
structure Stats where
  nb_bubbles : Nat
  nb_bubbles_high : Nat
  nb_bubbles_low : Nat
  nb_where_to_extend : Nat → Nat

/-- All counters start at zero. -/
def initStats : Stats :=
  { nb_bubbles := 0, nb_bubbles_high := 0, nb_bubbles_low := 0,
    nb_where_to_extend := fun _ => 0 }

/-- The counter updates of one `BubbleFinder::finish` call: `nb_bubbles` is
incremented (the atomic add of Bubble.cpp:255), the `where_to_extend` slot
is incremented, and exactly one of `nb_bubbles_high` / `nb_bubbles_low` is
incremented according to `score < threshold` (Bubble.cpp:271-274). -/
def finishStats (t : Tool) (s : Stats) (b : Bubble) : Stats :=
  { nb_bubbles := s.nb_bubbles + 1,
    nb_bubbles_high :=
      if b.score < t.threshold then s.nb_bubbles_high + 1 else s.nb_bubbles_high,
    nb_bubbles_low :=
      if b.score < t.threshold then s.nb_bubbles_low else s.nb_bubbles_low + 1,
    nb_where_to_extend := fun i =>
      if i = b.where_to_extend then s.nb_where_to_extend i + 1
      else s.nb_where_to_extend i }

/-- The consecutive-node relation of a walked path: the later node carries a
different k-mer than its immediate predecessor. -/
def kmerStep (a b : Node) : Prop := b.kmer ≠ a.kmer

/-! ## Helper lemmas -/

/-- The executable comparison `lexLt` agrees with the lexicographic strict
order `<` on character lists (and hence, through
`String.lt_iff_toList_lt`, with `<` on `String`). -/
theorem lexLt_iff_lt : ∀ xs ys : List Char, lexLt xs ys = true ↔ xs < ys := by
  intro xs
  induction xs with
  | nil =>
    intro ys
    cases ys with
    | nil =>
      constructor
      · intro h
        exact absurd h (by simp [lexLt])
      · intro h
        cases h
    | cons b bs =>
      constructor
      · intro _
        exact List.Lex.nil
      · intro _
        rfl
  | cons a as ih =>
    intro ys
    cases ys with
    | nil =>
      constructor
      · intro h
        exact absurd h (by simp [lexLt])
      · intro h
        cases h
    | cons b bs =>
      rw [show lexLt (a :: as) (b :: bs) =
            (if charLt a b then true
             else if charLt b a then false else lexLt as bs) from rfl]
      cases h1 : charLt a b with
      | true =>
        have hab : a < b := of_decide_eq_true h1
        rw [if_pos rfl]
        exact ⟨fun _ => List.Lex.rel hab, fun _ => rfl⟩
      | false =>
        have hab : ¬ a < b := of_decide_eq_false h1
        cases h2 : charLt b a with
        | true =>
          have hba : b < a := of_decide_eq_true h2
          rw [if_neg (by simp), if_pos rfl]
          refine iff_of_false (by simp) ?_
          intro h
          cases h with
          | cons h3 => exact absurd hba (lt_irrefl a)
          | rel h3 => exact absurd h3 hab
        | false =>
          have hba : ¬ b < a := of_decide_eq_false h2
          have heq : a = b := le_antisymm (not_lt.mp hba) (not_lt.mp hab)
          subst heq
          rw [if_neg (by simp), if_neg (by simp)]
          rw [ih bs]
          constructor
          · exact fun h => List.Lex.cons h
          · intro h
            cases h with
            | cons h3 => exact h3
            | rel h3 => exact absurd h3 hab

/-- Appending one node that differs from the last of a chain keeps the
chain property. -/
theorem chain'_concat {l : List Node} {n x : Node}
    (hc : List.Chain' kmerStep l) (hl : l.getLast? = some n)
    (hx : x.kmer ≠ n.kmer) : List.Chain' kmerStep (l ++ [x]) := by
  rw [List.chain'_append]
  refine ⟨hc, List.chain'_singleton x, ?_⟩
  intro a ha y hy
  rw [Option.mem_def, hl] at ha
  rw [Option.mem_def] at hy
  cases ha
  cases hy
  exact hx

/-- Positional reading of a `Chain'` fact through `getD`. -/
theorem chain'_getD {R : Node → Node → Prop} :
    ∀ l : List Node, List.Chain' R l → ∀ i : Nat, i + 1 < l.length →
      R (l.getD i nodeSentinel) (l.getD (i + 1) nodeSentinel)
  | [], _, i, h => absurd h (by simp)
  | [_], _, i, h => absurd h (by simp)
  | a :: b :: t, hc, 0, _ => by
    simpa [List.getD_cons_zero, List.getD_cons_succ] using (List.chain'_cons.mp hc).1
  | a :: b :: t, hc, i + 1, h => by
    simp only [List.getD_cons_succ]
    exact chain'_getD (b :: t) (List.chain'_cons.mp hc).2 i (by simpa using h)

/-- The traversal block never touches the `begin`/`end` nodes of the
bubble. -/
theorem extendTraverse_fields {g : Graph} {t : Tool} {b b1 : Bubble}
    {cl cr : Int} (h : extendTraverse g t b = some (b1, cl, cr)) :
    b1.begin0 = b.begin0 ∧ b1.begin1 = b.begin1 ∧
    b1.end0 = b.end0 ∧ b1.end1 = b.end1 := by
  unfold extendTraverse at h
  split at h
  · split at h
    · simp only [Option.some.injEq, Prod.mk.injEq] at h
      obtain ⟨h1, -, -⟩ := h
      rw [← h1]
      exact ⟨rfl, rfl, rfl, rfl⟩
    · simp at h
  · simp only [Option.some.injEq, Prod.mk.injEq] at h
    obtain ⟨h1, -, -⟩ := h
    rw [← h1]
    exact ⟨rfl, rfl, rfl, rfl⟩

/-- `extend` never touches the `begin`/`end` nodes of the bubble. -/
theorem extend_fields {g : Graph} {t : Tool} {b b2 : Bubble} {r : Bool}
    (h : extend g t b = some (b2, r)) :
    b2.begin0 = b.begin0 ∧ b2.begin1 = b.begin1 ∧
    b2.end0 = b.end0 ∧ b2.end1 = b.end1 := by
  unfold extend at h
  split at h
  · simp at h
  · rename_i b1 cl cr heq
    simp only [Option.some.injEq, Prod.mk.injEq] at h
    obtain ⟨h1, -⟩ := h
    have hf := extendTraverse_fields heq
    rw [← h1]
    exact ⟨hf.1, hf.2.1, hf.2.2.1, hf.2.2.2⟩

/-- `checkPath` only reads `begin0` and `end0`. -/
theorem checkPath_congr {g : Graph} {b b2 : Bubble}
    (h0 : b2.begin0 = b.begin0) (h1 : b2.end0 = b.end0) :
    checkPath g b2 = checkPath g b := by
  unfold checkPath
  rw [h0, h1]

/-- Reading of the node-difference guard. -/
theorem checkNodesDiff_iff {p c n : Node} :
    checkNodesDiff p c n = true ↔ (n.kmer ≠ c.kmer ∧ n.kmer ≠ p.kmer) := by
  simp [checkNodesDiff]

/-- Every bubble emitted by the successor loop passes `checkPath`, provided
every bubble produced through the deeper continuation does. -/
theorem expandLoop_checkPath (g : Graph) (t : Tool) (dk : Option Deeper)
    (hdk : ∀ k, dk = some k → ∀ x1 x2 a1 a2 out, k x1 x2 a1 a2 = some out →
      ∀ eb ∈ out, checkPath g eb.bubble = true) :
    ∀ (l : List (Node × Node)) (b : Bubble) (node1 node2 prev1 prev2 : Node)
      (acc1 acc2 : List Node) (out : List EmittedBubble),
      expandLoop g t dk b node1 node2 prev1 prev2 acc1 acc2 l = some out →
      ∀ eb ∈ out, checkPath g eb.bubble = true := by
  intro l
  induction l with
  | nil =>
    intro b n1 n2 p1 p2 a1 a2 out h eb hm
    simp only [expandLoop, Option.some.injEq] at h
    subst h
    simp at hm
  | cons hd rest ih =>
    obtain ⟨x1, x2⟩ := hd
    intro b n1 n2 p1 p2 a1 a2 out h eb hm
    cases dk with
    | some k =>
      simp only [expandLoop] at h
      split at h
      case isFalse => exact ih b n1 n2 p1 p2 a1 a2 out h eb hm
      case isTrue hguard =>
        split at h
        case h_1 => simp at h
        case h_2 outk heq =>
          split at h
          case isTrue =>
            rw [Option.some.injEq] at h
            subst h
            exact hdk k rfl x1 x2 (a1 ++ [x1]) (a2 ++ [x2]) outk heq eb hm
          case isFalse =>
            split at h
            case h_1 => simp at h
            case h_2 out2 heq2 =>
              rw [Option.some.injEq] at h
              subst h
              rcases List.mem_append.mp hm with hm1 | hm2
              · exact hdk k rfl x1 x2 (a1 ++ [x1]) (a2 ++ [x2]) outk heq eb hm1
              · exact ih b n1 n2 p1 p2 a1 a2 out2 heq2 eb hm2
    | none =>
      simp only [expandLoop] at h
      split at h
      case isFalse => exact ih b n1 n2 p1 p2 a1 a2 out h eb hm
      case isTrue hguard =>
        split at h
        case isTrue =>
          rw [Option.some.injEq] at h
          subst h
          simp at hm
        case isFalse hcb =>
          split at h
          case isFalse => exact ih b n1 n2 p1 p2 a1 a2 out h eb hm
          case isTrue hcp =>
            split at h
            case isFalse => exact ih b n1 n2 p1 p2 a1 a2 out h eb hm
            case isTrue hlc =>
              split at h
              case h_1 => simp at h
              case h_2 b3 okv hext =>
                split at h
                case isFalse => exact ih b n1 n2 p1 p2 a1 a2 out h eb hm
                case isTrue hokv =>
                  split at h
                  case h_1 => simp at h
                  case h_2 out2 heq2 =>
                    rw [Option.some.injEq] at h
                    subst h
                    rcases List.mem_cons.mp hm with hm1 | hm2
                    · subst hm1
                      have hf := extend_fields hext
                      have hb0 : b3.begin0 =
                          ({ b with end0 := x1, end1 := x2 } : Bubble).begin0 := hf.1
                      have he0 : b3.end0 =
                          ({ b with end0 := x1, end1 := x2 } : Bubble).end0 := hf.2.2.1
                      show checkPath g b3 = true
                      rw [checkPath_congr hb0 he0]
                      exact hcp
                    · exact ih b n1 n2 p1 p2 a1 a2 out2 heq2 eb hm2

/-- Every bubble emitted by `expand` passes `checkPath`. -/
theorem expand_checkPath (g : Graph) (t : Tool) :
    ∀ (fuel : Nat) (b : Bubble) (node1 node2 prev1 prev2 : Node)
      (acc1 acc2 : List Node) (out : List EmittedBubble),
      expand g t fuel b node1 node2 prev1 prev2 acc1 acc2 = some out →
      ∀ eb ∈ out, checkPath g eb.bubble = true := by
  intro fuel
  induction fuel with
  | zero =>
    intro b n1 n2 p1 p2 a1 a2 out h eb hm
    simp only [expand] at h
    split at h
    · rw [Option.some.injEq] at h
      subst h
      simp at hm
    · exact expandLoop_checkPath g t none
        (fun k hk => absurd hk (by simp))
        (g.successors2 n1 n2) b n1 n2 p1 p2 a1 a2 out h eb hm
  | succ f ihf =>
    intro b n1 n2 p1 p2 a1 a2 out h eb hm
    simp only [expand] at h
    split at h
    · rw [Option.some.injEq] at h
      subst h
      simp at hm
    · refine expandLoop_checkPath g t
        (some (fun x1 x2 a1 a2 => expand g t f b x1 x2 n1 n2 a1 a2)) ?_
        (g.successors2 n1 n2) b n1 n2 p1 p2 a1 a2 out h eb hm
      intro k hk x1 x2 a1' a2' out' hke
      rw [Option.some.injEq] at hk
      subst hk
      exact ihf b x1 x2 n1 n2 a1' a2' out' hke

/-- Every bubble emitted through `startLoop` passes `checkPath`. -/
theorem startLoop_checkPath (g : Graph) (t : Tool) (root : Node) :
    ∀ (ms : List Node) (out : List EmittedBubble),
      startLoop g t root ms = some out →
      ∀ eb ∈ out, checkPath g eb.bubble = true := by
  intro ms
  induction ms with
  | nil =>
    intro out h eb hm
    simp only [startLoop, Option.some.injEq] at h
    subst h
    simp at hm
  | cons m ms ih =>
    intro out h eb hm
    simp only [startLoop] at h
    split at h
    · simp at h
    · rename_i out1 heq1
      split at h
      · simp at h
      · rename_i out2 heq2
        rw [Option.some.injEq] at h
        subst h
        rcases List.mem_append.mp hm with hm1 | hm2
        · exact expand_checkPath g t (g.sizeKmer - 2) _ root m
            nodeSentinel nodeSentinel [root] [m] out1 heq1 eb hm1
        · exact ih out2 heq2 eb hm2

/-- Path invariant of the terminal (`pos = sizeKmer-1`) successor loop: the
ghost paths of every emitted bubble extend the accumulators by exactly one
node that differs from its predecessor. -/
theorem expandLoop_none_paths (g : Graph) (t : Tool) :
    ∀ (l : List (Node × Node)) (b : Bubble) (node1 node2 prev1 prev2 : Node)
      (acc1 acc2 : List Node) (out : List EmittedBubble),
      expandLoop g t none b node1 node2 prev1 prev2 acc1 acc2 l = some out →
      List.Chain' kmerStep acc1 → acc1.getLast? = some node1 →
      List.Chain' kmerStep acc2 → acc2.getLast? = some node2 →
      ∀ eb ∈ out,
        List.Chain' kmerStep eb.path0 ∧ List.Chain' kmerStep eb.path1 ∧
        eb.path0.length = acc1.length + 1 ∧ eb.path1.length = acc2.length + 1 := by
  intro l
  induction l with
  | nil =>
    intro b n1 n2 p1 p2 a1 a2 out h hc1 hl1 hc2 hl2 eb hm
    simp only [expandLoop, Option.some.injEq] at h
    subst h
    simp at hm
  | cons hd rest ih =>
    obtain ⟨x1, x2⟩ := hd
    intro b n1 n2 p1 p2 a1 a2 out h hc1 hl1 hc2 hl2 eb hm
    simp only [expandLoop] at h
    split at h
    case isFalse => exact ih b n1 n2 p1 p2 a1 a2 out h hc1 hl1 hc2 hl2 eb hm
    case isTrue hguard =>
      have hg12 : checkNodesDiff p1 n1 x1 = true ∧ checkNodesDiff p2 n2 x2 = true := by
        simpa using hguard
      split at h
      case isTrue =>
        rw [Option.some.injEq] at h
        subst h
        simp at hm
      case isFalse hcb =>
        split at h
        case isFalse => exact ih b n1 n2 p1 p2 a1 a2 out h hc1 hl1 hc2 hl2 eb hm
        case isTrue hcp =>
          split at h
          case isFalse => exact ih b n1 n2 p1 p2 a1 a2 out h hc1 hl1 hc2 hl2 eb hm
          case isTrue hlc =>
            split at h
            case h_1 => simp at h
            case h_2 b3 okv hext =>
              split at h
              case isFalse => exact ih b n1 n2 p1 p2 a1 a2 out h hc1 hl1 hc2 hl2 eb hm
              case isTrue hokv =>
                split at h
                case h_1 => simp at h
                case h_2 out2 heq2 =>
                  rw [Option.some.injEq] at h
                  subst h
                  rcases List.mem_cons.mp hm with hm1 | hm2
                  · subst hm1
                    refine ⟨?_, ?_, by simp, by simp⟩
                    · exact chain'_concat hc1 hl1 (checkNodesDiff_iff.mp hg12.1).1
                    · exact chain'_concat hc2 hl2 (checkNodesDiff_iff.mp hg12.2).1
                  · exact ih b n1 n2 p1 p2 a1 a2 out2 heq2 hc1 hl1 hc2 hl2 eb hm2

/-- Path invariant of the non-terminal successor loop: assuming the deeper
continuation guarantees chains and a fixed length increment `m` over its
accumulators, the loop guarantees chains and increment `m + 1`. -/
theorem expandLoop_some_paths (g : Graph) (t : Tool) (m : Nat) (k : Deeper)
    (hk : ∀ (x1 x2 : Node) (a1 a2 : List Node) (out : List EmittedBubble),
      k x1 x2 a1 a2 = some out →
      List.Chain' kmerStep a1 → a1.getLast? = some x1 →
      List.Chain' kmerStep a2 → a2.getLast? = some x2 →
      ∀ eb ∈ out,
        List.Chain' kmerStep eb.path0 ∧ List.Chain' kmerStep eb.path1 ∧
        eb.path0.length = a1.length + m ∧ eb.path1.length = a2.length + m) :
    ∀ (l : List (Node × Node)) (b : Bubble) (node1 node2 prev1 prev2 : Node)
      (acc1 acc2 : List Node) (out : List EmittedBubble),
      expandLoop g t (some k) b node1 node2 prev1 prev2 acc1 acc2 l = some out →
      List.Chain' kmerStep acc1 → acc1.getLast? = some node1 →
      List.Chain' kmerStep acc2 → acc2.getLast? = some node2 →
      ∀ eb ∈ out,
        List.Chain' kmerStep eb.path0 ∧ List.Chain' kmerStep eb.path1 ∧
        eb.path0.length = acc1.length + 1 + m ∧
        eb.path1.length = acc2.length + 1 + m := by
  intro l
  induction l with
  | nil =>
    intro b n1 n2 p1 p2 a1 a2 out h hc1 hl1 hc2 hl2 eb hm
    simp only [expandLoop, Option.some.injEq] at h
    subst h
    simp at hm
  | cons hd rest ih =>
    obtain ⟨x1, x2⟩ := hd
    intro b n1 n2 p1 p2 a1 a2 out h hc1 hl1 hc2 hl2 eb hm
    simp only [expandLoop] at h
    split at h
    case isFalse => exact ih b n1 n2 p1 p2 a1 a2 out h hc1 hl1 hc2 hl2 eb hm
    case isTrue hguard =>
      have hg12 : checkNodesDiff p1 n1 x1 = true ∧ checkNodesDiff p2 n2 x2 = true := by
        simpa using hguard
      split at h
      case h_1 => simp at h
      case h_2 outk heq =>
        have hout := hk x1 x2 (a1 ++ [x1]) (a2 ++ [x2]) outk heq
          (chain'_concat hc1 hl1 (checkNodesDiff_iff.mp hg12.1).1)
          (List.getLast?_concat a1)
          (chain'_concat hc2 hl2 (checkNodesDiff_iff.mp hg12.2).1)
          (List.getLast?_concat a2)
        split at h
        case isTrue =>
          rw [Option.some.injEq] at h
          subst h
          have he := hout eb hm
          refine ⟨he.1, he.2.1, ?_, ?_⟩
          · have h3 := he.2.2.1
            simp only [List.length_append, List.length_cons, List.length_nil] at h3
            omega
          · have h3 := he.2.2.2
            simp only [List.length_append, List.length_cons, List.length_nil] at h3
            omega
        case isFalse =>
          split at h
          case h_1 => simp at h
          case h_2 out2 heq2 =>
            rw [Option.some.injEq] at h
            subst h
            rcases List.mem_append.mp hm with hm1 | hm2
            · have he := hout eb hm1
              refine ⟨he.1, he.2.1, ?_, ?_⟩
              · have h3 := he.2.2.1
                simp only [List.length_append, List.length_cons, List.length_nil] at h3
                omega
              · have h3 := he.2.2.2
                simp only [List.length_append, List.length_cons, List.length_nil] at h3
                omega
            · exact ih b n1 n2 p1 p2 a1 a2 out2 heq2 hc1 hl1 hc2 hl2 eb hm2

/-- Path invariant of `expand`: every emitted bubble carries ghost paths
that extend the accumulators by `fuel + 1` nodes and are `kmerStep`
chains. -/
theorem expand_paths (g : Graph) (t : Tool) :
    ∀ (fuel : Nat) (b : Bubble) (node1 node2 prev1 prev2 : Node)
      (acc1 acc2 : List Node) (out : List EmittedBubble),
      expand g t fuel b node1 node2 prev1 prev2 acc1 acc2 = some out →
      List.Chain' kmerStep acc1 → acc1.getLast? = some node1 →
      List.Chain' kmerStep acc2 → acc2.getLast? = some node2 →
      ∀ eb ∈ out,
        List.Chain' kmerStep eb.path0 ∧ List.Chain' kmerStep eb.path1 ∧
        eb.path0.length = acc1.length + fuel + 1 ∧
        eb.path1.length = acc2.length + fuel + 1 := by
  intro fuel
  induction fuel with
  | zero =>
    intro b n1 n2 p1 p2 a1 a2 out h hc1 hl1 hc2 hl2 eb hm
    simp only [expand] at h
    split at h
    · rw [Option.some.injEq] at h
      subst h
      simp at hm
    · have he := expandLoop_none_paths g t (g.successors2 n1 n2)
        b n1 n2 p1 p2 a1 a2 out h hc1 hl1 hc2 hl2 eb hm
      refine ⟨he.1, he.2.1, ?_, ?_⟩
      · have h3 := he.2.2.1
        omega
      · have h3 := he.2.2.2
        omega
  | succ f ihf =>
    intro b n1 n2 p1 p2 a1 a2 out h hc1 hl1 hc2 hl2 eb hm
    simp only [expand] at h
    split at h
    · rw [Option.some.injEq] at h
      subst h
      simp at hm
    · have he := expandLoop_some_paths g t (f + 1)
        (fun x1 x2 a1 a2 => expand g t f b x1 x2 n1 n2 a1 a2)
        (by
          intro x1 x2 a1' a2' out' hke hc1' hl1' hc2' hl2' eb' hm'
          have h2 := ihf b x1 x2 n1 n2 a1' a2' out' hke hc1' hl1' hc2' hl2' eb' hm'
          refine ⟨h2.1, h2.2.1, ?_, ?_⟩
          · have h3 := h2.2.2.1
            omega
          · have h3 := h2.2.2.2
            omega)
        (g.successors2 n1 n2) b n1 n2 p1 p2 a1 a2 out h hc1 hl1 hc2 hl2 eb hm
      refine ⟨he.1, he.2.1, ?_, ?_⟩
      · have h3 := he.2.2.1
        omega
      · have h3 := he.2.2.2
        omega

/-- Path invariant of `startLoop`: both ghost paths of every emitted bubble
are `kmerStep` chains of length `(sizeKmer - 2) + 2`. -/
theorem startLoop_paths (g : Graph) (t : Tool) (root : Node) :
    ∀ (ms : List Node) (out : List EmittedBubble),
      startLoop g t root ms = some out →
      ∀ eb ∈ out,
        List.Chain' kmerStep eb.path0 ∧ List.Chain' kmerStep eb.path1 ∧
        eb.path0.length = (g.sizeKmer - 2) + 2 ∧
        eb.path1.length = (g.sizeKmer - 2) + 2 := by
  intro ms
  induction ms with
  | nil =>
    intro out h eb hm
    simp only [startLoop, Option.some.injEq] at h
    subst h
    simp at hm
  | cons m ms ih =>
    intro out h eb hm
    simp only [startLoop] at h
    split at h
    · simp at h
    · rename_i out1 heq1
      split at h
      · simp at h
      · rename_i out2 heq2
        rw [Option.some.injEq] at h
        subst h
        rcases List.mem_append.mp hm with hm1 | hm2
        · have he := expand_paths g t (g.sizeKmer - 2) _ root m
            nodeSentinel nodeSentinel [root] [m] out1 heq1
            (List.chain'_singleton root) (by simp)
            (List.chain'_singleton m) (by simp) eb hm1
          refine ⟨he.1, he.2.1, ?_, ?_⟩
          · have h3 := he.2.2.1
            simp only [List.length_cons, List.length_nil] at h3
            omega
          · have h3 := he.2.2.2
            simp only [List.length_cons, List.length_nil] at h3
            omega
        · exact ih out2 heq2 eb hm2

/-! ## Concrete instances

Small executable graphs and tool configurations used to instantiate the
theorems (witnesses) and to exhibit counterexamples. -/

/-- Shorthand for a forward-strand node with the given k-mer value. -/
def nd (v : Int) : Node := { kmer := v, strand := false }

/-- A two-k-mer example graph: node 0 mutates (last position, strictly
greater) to node 1, and the pair (0,1) has the single joint successor pair
(2,2).  `reverse` shifts k-mer values by 4.  All degrees are below two and
no joint edge successors are reported, so every branching policy accepts. -/
def gEx : Graph :=
  { sizeKmer := 2,
    reverse := fun n => { kmer := n.kmer + 4, strand := n.strand },
    mutate := fun n p m =>
      if n.kmer = 0 ∧ p = 1 ∧ m = 1 then [nd 1] else [],
    successors2 := fun a b =>
      if a.kmer = 0 ∧ b.kmer = 1 then [(nd 2, nd 2)] else [],
    jointEdgeSuccCount := fun _ _ => 0,
    indegree := fun _ => 0,
    outdegree := fun _ => 0,
    successors1 := fun _ => [],
    predecessors1 := fun _ => [],
    toString := fun n =>
      if n.kmer = 0 then "AA" else if n.kmer = 1 then "AC"
      else if n.kmer = 2 then "CA" else if n.kmer = 6 then "TG" else "TT",
    getNT := fun _ _ => 0 }

/-- Tool configuration for `gEx`: branching allowed everywhere, no
extension, a constant-zero complexity filter below the threshold. -/
def tEx : Tool :=
  { authorised_branching := 2,
    traversalKind := TraversalKind.NONE,
    threshold := 1,
    low := false,
    filterLowComplexity2Paths := fun _ _ => 0,
    trav := { traverse := fun _ => [], bubblesFirst := fun _ => none } }

/-- The bubble emitted by `start gEx tEx (nd 0)`: both paths stop on the
same joint successor node 2. -/
def ebEx : EmittedBubble :=
  { bubble :=
      { begin0 := nd 0, begin1 := nd 1, end0 := nd 2, end1 := nd 2,
        score := 0 },
    path0 := [nd 0, nd 2],
    path1 := [nd 1, nd 2] }

/-- The initial bubble record built by `start` for root node 0 and mutation
node 1. -/
def bSt : Bubble :=
  { begin0 := nd 0, begin1 := nd 1, end0 := nodeSentinel, end1 := nodeSentinel }

/-- Variant of `gEx` whose pair (0,1) has two joint edge successors in the
forward direction and none in the reverse direction. -/
def gBr : Graph :=
  { gEx with jointEdgeSuccCount := fun a b =>
      if a.kmer = 0 ∧ b.kmer = 1 then 2 else 0 }

/-- `gBr`'s tool: branching policy 1. -/
def tBr : Tool := { tEx with authorised_branching := 1 }

/-- Variant of `gEx` with a second joint successor pair after (2,2). -/
def gC3 : Graph :=
  { gEx with successors2 := fun a b =>
      if a.kmer = 0 ∧ b.kmer = 1 then [(nd 2, nd 2), (nd 3, nd 3)] else [] }

/-- `gC3`'s tool: branching policy 0. -/
def tC3 : Tool := { tEx with authorised_branching := 0 }

/-- Variant of `gEx` where node 2 has in-degree two, so that the strict
branching gate rejects the terminal pair (2,2). -/
def gC4 : Graph :=
  { gEx with indegree := fun n => if n.kmer = 2 then 2 else 0 }

/-- `gC4`'s tool: branching policy 0. -/
def tC4 : Tool := { tEx with authorised_branching := 0 }

/-- Variant of `gEx` with non-singleton neighbour sets around the bubble of
`ebEx` (two successors of node 2, two predecessors of node 0). -/
def gUni : Graph :=
  { gEx with
      successors1 := fun n => if n.kmer = 2 then [nd 3, nd 7] else [],
      predecessors1 := fun n => if n.kmer = 0 then [nd 5, nd 8] else [] }

/-- `gUni`'s tool: unitig extension with a small traversal oracle. -/
def tUni : Tool :=
  { tEx with
      traversalKind := TraversalKind.UNITIG,
      trav := { traverse := fun n => if n.kmer = 3 then [0, 1] else [2],
                bubblesFirst := fun _ => none } }

/-- A bubble with one closure present and both extensions non-empty, for
the rendering-length witness. -/
def bC6 : Bubble :=
  { begin0 := nd 0, begin1 := nd 1, end0 := nd 2, end1 := nd 2,
    extensionLeft := [0, 1], extensionRight := [2],
    closureLeft := 1, closureRight := -1 }

/-- Two finished bubbles exercising both score classes and two
`where_to_extend` slots. -/
def statsL : List Bubble :=
  [{ begin0 := nd 0, begin1 := nd 1, end0 := nd 2, end1 := nd 2,
     where_to_extend := 3, score := 5 },
   ebEx.bubble]

/-! ## Claims -/

/-- The rejection condition exactly as claim C1 words it: under policy 1 the
two directional joint-successor counts must BOTH reach two. -/
def claimedRejectC1 (g : Graph) (t : Tool) (node1 node2 : Node) : Prop :=
  (t.authorised_branching = 0 ∧
    (two_possible_extensions_on_one_path g node1 = true ∨
     two_possible_extensions_on_one_path g node2 = true)) ∨
  (t.authorised_branching = 1 ∧
    2 ≤ g.jointEdgeSuccCount node1 node2 ∧
    2 ≤ g.jointEdgeSuccCount (g.reverse node1) (g.reverse node2))

/-- Claim C1 counterexample: on a pair whose joint edge successors number
two in the forward direction but zero in the reverse direction, policy 1
rejects in the code (the source combines the two directions with an OR),
while the claimed conjunctive condition does not hold. -/
theorem checkBranching_claim_cex :
    ¬ (checkBranching gBr tBr (nd 0) (nd 1) = false ↔
       claimedRejectC1 gBr tBr (nd 0) (nd 1)) := by
  unfold claimedRejectC1
  decide

/-- Claim C1 (amended): `checkBranching` rejects exactly when
`authorised_branching = 0` and one of the two nodes has in-degree ≥ 2 or
out-degree ≥ 2, or `authorised_branching = 1` and the joint successor pairs
of the two nodes number ≥ 2 in the forward OR in the reverse direction; any
other policy value (in particular 2) always accepts. -/
theorem checkBranching_spec (g : Graph) (t : Tool) (node1 node2 : Node) :
    checkBranching g t node1 node2 = false ↔
      ((t.authorised_branching = 0 ∧
        (2 ≤ g.indegree node1 ∨ 2 ≤ g.outdegree node1 ∨
         2 ≤ g.indegree node2 ∨ 2 ≤ g.outdegree node2)) ∨
       (t.authorised_branching = 1 ∧
        (2 ≤ g.jointEdgeSuccCount node1 node2 ∨
         2 ≤ g.jointEdgeSuccCount (g.reverse node1) (g.reverse node2)))) := by
  unfold checkBranching two_possible_extensions two_possible_extensions_on_one_path
  by_cases h0 : t.authorised_branching = 0
  · simp [h0, or_assoc]
    omega
  · by_cases h1 : t.authorised_branching = 1
    · simp [h0, h1, or_assoc]
      omega
    · simp [h0, h1]

/-- Claim C3: with branching policy 0 or 1 at a non-terminal position,
`expand` explores only the first surviving successor pair — the result is
exactly that of the recursive call on it, whatever pairs remain — while a
pair rejected by the node-difference guard is skipped and the loop
continues. -/
theorem expand_first_survivor (g : Graph) (t : Tool) (fuel : Nat) (b : Bubble)
    (node1 node2 prev1 prev2 : Node) (acc1 acc2 : List Node)
    (x1 x2 : Node) (rest : List (Node × Node))
    (hab : t.authorised_branching = 0 ∨ t.authorised_branching = 1)
    (hcb : checkBranching g t node1 node2 = true)
    (hsucc : g.successors2 node1 node2 = (x1, x2) :: rest)
    (hg1 : checkNodesDiff prev1 node1 x1 = true)
    (hg2 : checkNodesDiff prev2 node2 x2 = true) :
    expand g t (fuel + 1) b node1 node2 prev1 prev2 acc1 acc2 =
      expand g t fuel b x1 x2 node1 node2 (acc1 ++ [x1]) (acc2 ++ [x2]) ∧
    (∀ (dk : Option Deeper) (y1 y2 : Node) (rest2 : List (Node × Node)),
      (checkNodesDiff prev1 node1 y1 && checkNodesDiff prev2 node2 y2) = false →
      expandLoop g t dk b node1 node2 prev1 prev2 acc1 acc2 ((y1, y2) :: rest2) =
        expandLoop g t dk b node1 node2 prev1 prev2 acc1 acc2 rest2) := by
  constructor
  · simp only [expand]
    rw [if_neg (by simp [hcb]), hsucc]
    simp only [expandLoop]
    rw [if_pos (by simp [hg1, hg2])]
    rcases hab with h | h <;>
    · rw [h]
      cases hsub : expand g t fuel b x1 x2 node1 node2 (acc1 ++ [x1]) (acc2 ++ [x2]) <;>
        simp
  · intro dk y1 y2 rest2 hg
    simp only [expandLoop]
    rw [if_neg (by simp [hg])]

/-- Claim C3 witness: on `gC3` (two joint successor pairs) with policy 0,
the non-terminal step equals the single recursive call on the first pair. -/
theorem expand_first_survivor_witness :
    expand gC3 tC3 1 bSt (nd 0) (nd 1) nodeSentinel nodeSentinel
        [nd 0] [nd 1] =
      expand gC3 tC3 0 bSt (nd 2) (nd 2) (nd 0) (nd 1)
        ([nd 0] ++ [nd 2]) ([nd 1] ++ [nd 2]) :=
  (expand_first_survivor gC3 tC3 0 bSt (nd 0) (nd 1) nodeSentinel nodeSentinel
    [nd 0] [nd 1] (nd 2) (nd 2) [(nd 3, nd 3)]
    (Or.inl rfl) (by decide) (by decide) (by decide) (by decide)).1

/-- Claim C4: at the terminal position (`pos = sizeKmer-1`, fuel 0), if the
branching gate fails on a guard-surviving candidate final pair, the loop
returns at once — no remaining successor pair contributes anything. -/
theorem expand_terminal_abort (g : Graph) (t : Tool) (b : Bubble)
    (node1 node2 prev1 prev2 : Node) (acc1 acc2 : List Node)
    (x1 x2 : Node) (rest : List (Node × Node))
    (hg1 : checkNodesDiff prev1 node1 x1 = true)
    (hg2 : checkNodesDiff prev2 node2 x2 = true)
    (hcb : checkBranching g t x1 x2 = false) :
    expandLoop g t none b node1 node2 prev1 prev2 acc1 acc2
      ((x1, x2) :: rest) = some [] := by
  simp only [expandLoop]
  rw [if_pos (by simp [hg1, hg2]), if_pos hcb]

/-- Claim C4 witness: with policy 0 and the terminal pair (2,2) branching
(in-degree 2), the terminal loop aborts even though the pair (3,3) is still
pending. -/
theorem expand_terminal_abort_witness :
    expandLoop gC4 tC4 none bSt (nd 0) (nd 1) nodeSentinel nodeSentinel
      [nd 0] [nd 1] [(nd 2, nd 2), (nd 3, nd 3)] = some [] :=
  expand_terminal_abort gC4 tC4 bSt (nd 0) (nd 1) nodeSentinel nodeSentinel
    [nd 0] [nd 1] (nd 2) (nd 2) [(nd 3, nd 3)]
    (by decide) (by decide) (by decide)

/-- Claim C2 counterexample: on `gEx` the single emitted bubble has the SAME
node (k-mer 2) at position 1 of both paths — nothing in `expand` compares
the two paths against each other, so the claimed cross-path distinctness
fails on an emitted bubble. -/
theorem bubble_paths_claim_cex :
    ¬ (∀ (l : List EmittedBubble) (eb : EmittedBubble),
        start gEx tEx (nd 0) = some l → eb ∈ l →
        ∀ i : Nat, 1 ≤ i → i < eb.path0.length →
          (eb.path0.getD i nodeSentinel).kmer ≠
          (eb.path1.getD i nodeSentinel).kmer) := by
  intro hclaim
  exact hclaim [ebEx] ebEx rfl (List.mem_singleton.mpr rfl) 1
    (by decide) (by decide) (by decide)

/-- Claim C2 (amended): along every bubble emitted by `start`, both paths
have length `sizeKmer` and at every position `p ∈ [1, sizeKmer-1]` the node
differs (as a k-mer) from its predecessor on its OWN path.  (The original
claim's cross-path distinctness is not enforced by the guards and fails:
see the counterexample.) -/
theorem bubble_paths_spec (g : Graph) (t : Tool) (root : Node)
    (l : List EmittedBubble) (eb : EmittedBubble)
    (hk : 2 ≤ g.sizeKmer) (hrun : start g t root = some l) (hmem : eb ∈ l) :
    eb.path0.length = g.sizeKmer ∧ eb.path1.length = g.sizeKmer ∧
    (∀ i : Nat, i + 1 < eb.path0.length →
      (eb.path0.getD (i + 1) nodeSentinel).kmer ≠
      (eb.path0.getD i nodeSentinel).kmer) ∧
    (∀ i : Nat, i + 1 < eb.path1.length →
      (eb.path1.getD (i + 1) nodeSentinel).kmer ≠
      (eb.path1.getD i nodeSentinel).kmer) := by
  have he := startLoop_paths g t root _ l hrun eb hmem
  refine ⟨?_, ?_, ?_, ?_⟩
  · have h3 := he.2.2.1
    omega
  · have h3 := he.2.2.2
    omega
  · intro i hi
    exact chain'_getD eb.path0 he.1 i hi
  · intro i hi
    exact chain'_getD eb.path1 he.2.1 i hi

/-- Claim C2 (amended) witness: the bubble emitted on `gEx`. -/
theorem bubble_paths_spec_witness :
    ebEx.path0.length = gEx.sizeKmer ∧ ebEx.path1.length = gEx.sizeKmer ∧
    (∀ i : Nat, i + 1 < ebEx.path0.length →
      (ebEx.path0.getD (i + 1) nodeSentinel).kmer ≠
      (ebEx.path0.getD i nodeSentinel).kmer) ∧
    (∀ i : Nat, i + 1 < ebEx.path1.length →
      (ebEx.path1.getD (i + 1) nodeSentinel).kmer ≠
      (ebEx.path1.getD i nodeSentinel).kmer) :=
  bubble_paths_spec gEx tEx (nd 0) [ebEx] ebEx (by decide) rfl
    (List.mem_singleton.mpr rfl)

/-- Claim C5: every bubble emitted by `start` passes `checkPath`, and
`checkPath` accepts exactly when the rendering of `begin[0]` is
lexicographically smaller (the standard strict order on strings) than the
rendering of `reverse(end[0])`. -/
theorem checkPath_emission (g : Graph) (t : Tool) (root : Node)
    (l : List EmittedBubble) (eb : EmittedBubble)
    (hrun : start g t root = some l) (hmem : eb ∈ l) :
    checkPath g eb.bubble = true ∧
    (∀ b : Bubble, checkPath g b = true ↔
      g.toString b.begin0 < g.toString (g.reverse b.end0)) := by
  constructor
  · exact startLoop_checkPath g t root _ l hrun eb hmem
  · intro b
    exact (lexLt_iff_lt (g.toString b.begin0).toList
      (g.toString (g.reverse b.end0)).toList).trans String.lt_iff_toList_lt.symm

/-- Claim C5 witness: the bubble emitted on `gEx` ("AA" < "TG"). -/
theorem checkPath_emission_witness :
    checkPath gEx ebEx.bubble = true ∧
    (∀ b : Bubble, checkPath gEx b = true ↔
      gEx.toString b.begin0 < gEx.toString (gEx.reverse b.end0)) :=
  checkPath_emission gEx tEx (nd 0) [ebEx] ebEx rfl
    (List.mem_singleton.mpr rfl)

/-- Claim C6: provided the graph renders every involved node as a
`sizeKmer`-character string (the adapter contract), the sequence data
written by `buildSequence` for either path has length
`(2k-1) + |extensionLeft| + |extensionRight| + [closureLeft present] +
[closureRight present]`. -/
theorem buildSequence_length (g : Graph) (b : Bubble) (i : Nat)
    (hk : 1 ≤ g.sizeKmer)
    (hb0 : (g.toString b.begin0).length = g.sizeKmer)
    (hb1 : (g.toString b.begin1).length = g.sizeKmer)
    (he0 : (g.toString b.end0).length = g.sizeKmer)
    (he1 : (g.toString b.end1).length = g.sizeKmer) :
    (buildSequence g b i).length =
      (2 * g.sizeKmer - 1) + b.extensionLeft.length + b.extensionRight.length +
      (if b.closureLeft = -1 then 0 else 1) +
      (if b.closureRight = -1 then 0 else 1) := by
  have ht : ∀ s : String, s.toList.length = s.length := fun s => rfl
  unfold buildSequence
  split_ifs <;>
    simp_all [List.length_append, List.length_take, List.length_map,
      List.length_reverse, ht] <;> omega

/-- Claim C6 witness: a concrete bubble on `gEx` with a left closure, a
two-nucleotide left extension and a one-nucleotide right extension. -/
theorem buildSequence_length_witness :
    (buildSequence gEx bC6 0).length =
      (2 * gEx.sizeKmer - 1) + bC6.extensionLeft.length +
      bC6.extensionRight.length +
      (if bC6.closureLeft = -1 then 0 else 1) +
      (if bC6.closureRight = -1 then 0 else 1) :=
  buildSequence_length gEx bC6 0 (by decide) (by decide) (by decide)
    (by decide) (by decide)

/-- Claim C7: `checkLowComplexity` accepts exactly when the computed score
is below the threshold, or at/above it with the `low` flag set; hence for
a fixed bubble and threshold, acceptance with `low = false` implies
acceptance with `low = true`. -/
theorem checkLowComplexity_spec (g : Graph) (t : Tool) (b : Bubble) :
    ((checkLowComplexity g t b).2 = true ↔
      ((checkLowComplexity g t b).1.score < t.threshold ∨
       (t.threshold ≤ (checkLowComplexity g t b).1.score ∧ t.low = true))) ∧
    ((checkLowComplexity g { t with low := false } b).2 = true →
      (checkLowComplexity g { t with low := true } b).2 = true) := by
  constructor
  · simp [checkLowComplexity]
  · simp only [checkLowComplexity]
    simp
    omega

/-- Claim C7 witness: the `gEx` bubble (score 0 < threshold 1) is accepted
with `low = false`, hence with `low = true`. -/
theorem checkLowComplexity_spec_witness :
    (checkLowComplexity gEx { tEx with low := true } ebEx.bubble).2 = true :=
  (checkLowComplexity_spec gEx tEx ebEx.bubble).2 (by decide)

/-- Claim C8: whenever `extend` completes it returns `true`, with
`where_to_extend = 1·[closureLeft present] + 2·[closureRight present]`; and
with `traversalKind = NONE` it always completes, leaving the extensions
untouched, both closures absent and `where_to_extend = 0`. -/
theorem extend_returns_true :
    (∀ (g : Graph) (t : Tool) (b : Bubble),
      t.traversalKind = TraversalKind.NONE →
      extend g t b = some ({ b with closureLeft := -1, closureRight := -1,
                                    where_to_extend := 0 }, true)) ∧
    (∀ (g : Graph) (t : Tool) (b b2 : Bubble) (r : Bool),
      extend g t b = some (b2, r) →
      r = true ∧
      b2.where_to_extend = (if b2.closureLeft = -1 then 0 else 1) +
        (if b2.closureRight = -1 then 0 else 2)) := by
  constructor
  · intro g t b htk
    simp [extend, extendTraverse, htk, whereToExtendCode]
  · intro g t b b2 r h
    unfold extend at h
    split at h
    · simp at h
    · rename_i b1 cl cr heq
      simp only [Option.some.injEq, Prod.mk.injEq] at h
      obtain ⟨hb, hr⟩ := h
      refine ⟨hr.symm, ?_⟩
      rw [← hb]
      show whereToExtendCode cl cr =
        (if cl = -1 then 0 else 1) + (if cr = -1 then 0 else 2)
      unfold whereToExtendCode
      by_cases h1 : cl = -1 <;> by_cases h2 : cr = -1 <;> simp [h1, h2]

/-- Claim C8 witness: `extend` on the `gEx` bubble under `NONE`. -/
theorem extend_returns_true_witness :
    extend gEx tEx ebEx.bubble = some (ebEx.bubble, true) ∧
    (true = true ∧
      ebEx.bubble.where_to_extend =
        (if ebEx.bubble.closureLeft = -1 then 0 else 1) +
        (if ebEx.bubble.closureRight = -1 then 0 else 2)) :=
  ⟨extend_returns_true.1 gEx tEx ebEx.bubble rfl,
   extend_returns_true.2 gEx tEx ebEx.bubble ebEx.bubble true
     (extend_returns_true.1 gEx tEx ebEx.bubble rfl)⟩

/-- Claim C9: with `traversalKind ≠ NONE`, `extend` completes exactly when
both the predecessor set of `begin[0]` and the successor set of `end[0]`
are non-empty (the source indexes element 0 of both without a bounds
check), and whenever both are non-empty — whatever their sizes — it invokes
the traversal primitive on element 0 of each. -/
theorem extend_element_zero (g : Graph) (t : Tool) (b : Bubble)
    (h : t.traversalKind ≠ TraversalKind.NONE) :
    ((extend g t b).isSome = true ↔
      (g.predecessors1 b.begin0 ≠ [] ∧ g.successors1 b.end0 ≠ [])) ∧
    (∀ (p0 : Node) (ps : List Node) (s0 : Node) (ss : List Node),
      g.predecessors1 b.begin0 = p0 :: ps →
      g.successors1 b.end0 = s0 :: ss →
      ∃ b2 : Bubble, extend g t b = some (b2, true) ∧
        b2.extensionRight = t.trav.traverse s0 ∧
        b2.extensionLeft = t.trav.traverse (g.reverse p0)) := by
  constructor
  · unfold extend extendTraverse
    rw [if_pos h]
    cases hs : g.successors1 b.end0 <;>
      cases hp : g.predecessors1 b.begin0 <;> simp [hs, hp]
  · intro p0 ps s0 ss hp hs
    unfold extend extendTraverse
    rw [if_pos h, hs, hp]
    exact ⟨_, rfl, rfl, rfl⟩

/-- Claim C9 witness: on `gUni` (two predecessors of `begin[0]`, two
successors of `end[0]`) with `UNITIG`, `extend` completes and traverses
from element 0 of each set. -/
theorem extend_element_zero_witness :
    ((extend gUni tUni ebEx.bubble).isSome = true ↔
      (gUni.predecessors1 ebEx.bubble.begin0 ≠ [] ∧
       gUni.successors1 ebEx.bubble.end0 ≠ [])) ∧
    (∃ b2 : Bubble, extend gUni tUni ebEx.bubble = some (b2, true) ∧
      b2.extensionRight = tUni.trav.traverse (nd 3) ∧
      b2.extensionLeft = tUni.trav.traverse (gUni.reverse (nd 5))) :=
  ⟨(extend_element_zero gUni tUni ebEx.bubble (by decide)).1,
   (extend_element_zero gUni tUni ebEx.bubble (by decide)).2
     (nd 5) [nd 8] (nd 3) [nd 7] rfl rfl⟩

/-- One `finishStats` step keeps the counter balance, provided the bubble's
`where_to_extend` code is in range. -/
theorem statsInv_step (t : Tool) (s : Stats) (b : Bubble)
    (h4 : b.where_to_extend < 4)
    (h1 : s.nb_bubbles = s.nb_bubbles_high + s.nb_bubbles_low)
    (h2 : s.nb_bubbles = s.nb_where_to_extend 0 + s.nb_where_to_extend 1 +
      s.nb_where_to_extend 2 + s.nb_where_to_extend 3) :
    (finishStats t s b).nb_bubbles =
      (finishStats t s b).nb_bubbles_high + (finishStats t s b).nb_bubbles_low ∧
    (finishStats t s b).nb_bubbles =
      (finishStats t s b).nb_where_to_extend 0 +
      (finishStats t s b).nb_where_to_extend 1 +
      (finishStats t s b).nb_where_to_extend 2 +
      (finishStats t s b).nb_where_to_extend 3 := by
  unfold finishStats
  constructor
  · by_cases hs : b.score < t.threshold <;> simp [hs] <;> omega
  · have hr : b.where_to_extend = 0 ∨ b.where_to_extend = 1 ∨
        b.where_to_extend = 2 ∨ b.where_to_extend = 3 := by omega
    rcases hr with h | h | h | h <;> simp [h] <;> omega

/-- Folding `finishStats` keeps the counter balance. -/
theorem statsInv_foldl (t : Tool) :
    ∀ (l : List Bubble) (s : Stats),
      (∀ b ∈ l, b.where_to_extend < 4) →
      s.nb_bubbles = s.nb_bubbles_high + s.nb_bubbles_low →
      s.nb_bubbles = s.nb_where_to_extend 0 + s.nb_where_to_extend 1 +
        s.nb_where_to_extend 2 + s.nb_where_to_extend 3 →
      (List.foldl (finishStats t) s l).nb_bubbles =
        (List.foldl (finishStats t) s l).nb_bubbles_high +
        (List.foldl (finishStats t) s l).nb_bubbles_low ∧
      (List.foldl (finishStats t) s l).nb_bubbles =
        (List.foldl (finishStats t) s l).nb_where_to_extend 0 +
        (List.foldl (finishStats t) s l).nb_where_to_extend 1 +
        (List.foldl (finishStats t) s l).nb_where_to_extend 2 +
        (List.foldl (finishStats t) s l).nb_where_to_extend 3 := by
  intro l
  induction l with
  | nil =>
    intro s h4 h1 h2
    exact ⟨h1, h2⟩
  | cons b l ih =>
    intro s h4 h1 h2
    have hstep := statsInv_step t s b (h4 b (List.mem_cons_self b l)) h1 h2
    exact ih (finishStats t s b)
      (fun b2 hb2 => h4 b2 (List.mem_cons_of_mem b hb2)) hstep.1 hstep.2

/-- Claim C10: each `finish` call increments `nb_bubbles`, exactly one of
`nb_bubbles_high`/`nb_bubbles_low` (according to `score < threshold`), and
exactly the `where_to_extend` slot of `nb_where_to_extend`; consequently,
from zeroed counters, after any sequence of calls whose codes are in range
`nb_bubbles = nb_bubbles_high + nb_bubbles_low = Σ_{i<4} nb_where_to_extend i`. -/
theorem finish_counters :
    (∀ (t : Tool) (s : Stats) (b : Bubble),
      (finishStats t s b).nb_bubbles = s.nb_bubbles + 1 ∧
      (b.score < t.threshold →
        (finishStats t s b).nb_bubbles_high = s.nb_bubbles_high + 1 ∧
        (finishStats t s b).nb_bubbles_low = s.nb_bubbles_low) ∧
      (t.threshold ≤ b.score →
        (finishStats t s b).nb_bubbles_high = s.nb_bubbles_high ∧
        (finishStats t s b).nb_bubbles_low = s.nb_bubbles_low + 1) ∧
      (finishStats t s b).nb_where_to_extend b.where_to_extend =
        s.nb_where_to_extend b.where_to_extend + 1 ∧
      (∀ j : Nat, j ≠ b.where_to_extend →
        (finishStats t s b).nb_where_to_extend j = s.nb_where_to_extend j)) ∧
    (∀ (t : Tool) (l : List Bubble),
      (∀ b ∈ l, b.where_to_extend < 4) →
      (List.foldl (finishStats t) initStats l).nb_bubbles =
        (List.foldl (finishStats t) initStats l).nb_bubbles_high +
        (List.foldl (finishStats t) initStats l).nb_bubbles_low ∧
      (List.foldl (finishStats t) initStats l).nb_bubbles =
        (List.foldl (finishStats t) initStats l).nb_where_to_extend 0 +
        (List.foldl (finishStats t) initStats l).nb_where_to_extend 1 +
        (List.foldl (finishStats t) initStats l).nb_where_to_extend 2 +
        (List.foldl (finishStats t) initStats l).nb_where_to_extend 3) := by
  constructor
  · intro t s b
    refine ⟨rfl, ?_, ?_, ?_, ?_⟩
    · intro hs
      simp [finishStats, hs]
    · intro hs
      rw [← not_lt] at hs
      simp [finishStats, hs]
    · simp [finishStats]
    · intro j hj
      simp [finishStats, hj]
  · intro t l h4
    exact statsInv_foldl t l initStats h4 rfl rfl

/-- Claim C10 witness: two finished bubbles (codes 3 and 0, one above and
one below the threshold). -/
theorem finish_counters_witness :
    ((finishStats tEx initStats ebEx.bubble).nb_bubbles =
      initStats.nb_bubbles + 1) ∧
    ((finishStats tEx initStats ebEx.bubble).nb_bubbles_high =
      initStats.nb_bubbles_high + 1 ∧
     (finishStats tEx initStats ebEx.bubble).nb_bubbles_low =
      initStats.nb_bubbles_low) ∧
    ((List.foldl (finishStats tEx) initStats statsL).nb_bubbles =
      (List.foldl (finishStats tEx) initStats statsL).nb_bubbles_high +
      (List.foldl (finishStats tEx) initStats statsL).nb_bubbles_low ∧
     (List.foldl (finishStats tEx) initStats statsL).nb_bubbles =
      (List.foldl (finishStats tEx) initStats statsL).nb_where_to_extend 0 +
      (List.foldl (finishStats tEx) initStats statsL).nb_where_to_extend 1 +
      (List.foldl (finishStats tEx) initStats statsL).nb_where_to_extend 2 +
      (List.foldl (finishStats tEx) initStats statsL).nb_where_to_extend 3) :=
  ⟨(finish_counters.1 tEx initStats ebEx.bubble).1,
   (finish_counters.1 tEx initStats ebEx.bubble).2.1 (by decide),
   finish_counters.2 tEx statsL (by decide)⟩

end Kissnp2
